import Mathlib

/-!
A shallow embedding of the bobarista expression language core: the runtime
value model, the tree-walking evaluator (`src/engine/engine.rs`), and the
recursive-descent expression parser (`src/parser/ast/expr.rs`).

Modelling conventions:
* `IBig` (arbitrary-precision integer) is modelled as `ℤ`.
* `DBig` (arbitrary-precision decimal float) is modelled as exact rational
  arithmetic on `ℚ`; the library's precision, rounding and display rules are
  an external-library concern per the specification (§4.5).
* Rust `HashMap` scopes are modelled as association lists where insertion
  conses a fresh binding; lookup takes the first match, which is
  observationally the insert-overwrite behaviour of the map.
* The evaluator's unbounded recursion (function calls, `while` loops) is made
  total with a fuel parameter; exhausted fuel yields a distinct `timeout`
  outcome corresponding to a run of the Rust code that has not (yet)
  returned.  Theorems about exit paths are conditioned on the result not
  being `timeout`.
-/

namespace Boba

/-- A source location: the byte range of `CacheSpan` (`src/cache.rs`); the
cache identifier plays no semantic role and is omitted. -/
structure Span where
  lo : Nat
  hi : Nat
  deriving DecidableEq, Repr

/-- `Node<Data, T>`: a payload annotated with a source span
(`src/parser/ast/node.rs`, with `Data` instantiated to the span). -/
structure Node (α : Type) where
  data : Span
  item : α
  deriving DecidableEq, Repr

/-- Runtime values (`src/engine/value.rs`). -/
inductive Value where
  | none
  | bool (b : Bool)
  | int (n : ℤ)
  | float (q : ℚ)
  | string (s : String)
  deriving DecidableEq, Repr

/-- `Value::type_name` (`src/engine/value.rs`). -/
def Value.type_name : Value → String
  | .none => "none"
  | .bool _ => "bool"
  | .int _ => "int"
  | .float _ => "float"
  | .string _ => "string"

/-- The `Display` form of a value, used by string concatenation.  The numeric
renderings are the external numeric library's concern (§4.5); `toString` on
the model types stands in for them. -/
def Value.display : Value → String
  | .none => "none"
  | .bool b => toString b
  | .int n => toString n
  | .float q => toString q
  | .string s => s

/-- `UnaryOpType` (`src/engine/engine.rs`). -/
inductive UnaryOpType where
  | Neg
  | Not
  deriving DecidableEq, Repr

/-- `BinaryOpType` (`src/engine/engine.rs`). -/
inductive BinaryOpType where
  | Add | Sub | Mul | Div | Mod | Pow
  | Eq | Lt | Gt | NEq | LtEq | GtEq
  | And | Or
  deriving DecidableEq, Repr

/-- Runtime errors.  Modelled from the spec: the engine error module is not
among the provided sources; the constructors and fields are taken from the
spec (§7) and from every construction site in `src/engine/engine.rs`. -/
inductive RunError where
  | UnknownFunction (ident : String) (data : Span)
  | UnknownVariable (ident : String) (data : Span)
  | ParameterCount (expected found : Nat) (data : Span)
  | NativeCallError (data : Span) (message : String)
  | TypeMismatch (expected found : String) (data : Span)
  | InvalidUnary (op : UnaryOpType) (vtype : String) (data : Span)
  | InvalidBinary (op : BinaryOpType) (vtype1 vtype2 : String) (data : Span)
  deriving DecidableEq, Repr

mutual

/-- `Expr` (`src/parser/ast/expr.rs`). -/
inductive Expr where
  | none
  | var (ident : String)
  | bool (b : Bool)
  | int (n : ℤ)
  | float (q : ℚ)
  | string (s : String)
  | call (ident : Node String) (args : List (Node Expr))
  | neg (e : Node Expr)
  | add (l r : Node Expr)
  | sub (l r : Node Expr)
  | mul (l r : Node Expr)
  | div (l r : Node Expr)
  | mod (l r : Node Expr)
  | pow (l r : Node Expr)
  | not (e : Node Expr)
  | and (l r : Node Expr)
  | or (l r : Node Expr)
  | eq (l r : Node Expr)
  | lt (l r : Node Expr)
  | gt (l r : Node Expr)
  | neq (l r : Node Expr)
  | lteq (l r : Node Expr)
  | gteq (l r : Node Expr)
  | assign (ident : Node String) (e : Node Expr)
  | walrus (ident : Node String) (e : Node Expr)
  | ternary (cond t f : Node Expr)

/-- `Statement`, modelled from the spec (§3) and its consumption in
`Engine::eval_statement` (`src/engine/engine.rs`): the statement module is
not among the provided sources. -/
inductive Statement where
  | expr (e : Node Expr)
  | func (f : Node CustomFunc)
  | letAssign (ident : Node String) (e : Node Expr)
  | assign (ident : Node String) (e : Node Expr)
  | whileLoop (cond : Node Expr) (body : List (Node Statement))

/-- A user-defined function: ordered parameter names and ordered body
statements.  Modelled from the spec (§3 `Function`, `Custom`); the function
module is not among the provided sources. -/
inductive CustomFunc where
  | mk (name : String) (params : List (Node String)) (body : List (Node Statement))

end

/-- Declared name of a custom function. -/
def CustomFunc.name : CustomFunc → String
  | .mk n _ _ => n

/-- Ordered parameter list of a custom function. -/
def CustomFunc.params : CustomFunc → List (Node String)
  | .mk _ ps _ => ps

/-- Ordered body statements of a custom function. -/
def CustomFunc.body : CustomFunc → List (Node Statement)
  | .mk _ _ b => b

/-- A host-registered native function.  Modelled from the spec (§3
`Function`, `Native`; §6 native-function registration): a name, a declared
parameter count, and a callback from the argument values to a value or an
error message. -/
structure NativeFunc where
  name : String
  paramCount : Nat
  callback : List Value → Except String Value

/-- `FuncType` (stored in scopes): native or custom.  Modelled from the spec
(§3) and the two match arms of `Engine::eval_func`. -/
inductive FuncType where
  | native (f : NativeFunc)
  | custom (f : CustomFunc)

/-- `FuncType::param_count`.  Modelled from the spec: a native function's
declared count, and for a custom function the length of its parameter list
(§3: "a `Custom` function's parameter list length is the arity bound"). -/
def FuncType.param_count : FuncType → Nat
  | .native f => f.paramCount
  | .custom f => f.params.length

/-- One frame: identifier→value and identifier→function mappings.  Modelled
from the spec (§3 Scope) and the scope interface used by
`src/engine/engine.rs`. -/
structure Scope where
  vars : List (String × Value)
  funcs : List (String × FuncType)

/-- `Scope::new`: an empty frame. -/
def Scope.new : Scope := ⟨[], []⟩

/-- `Scope::init_var`: create/overwrite a binding. -/
def Scope.init_var (s : Scope) (ident : String) (v : Value) : Scope :=
  { s with vars := (ident, v) :: s.vars }

/-- `Scope::get_var`. -/
def Scope.get_var (s : Scope) (ident : String) : Option Value :=
  s.vars.lookup ident

/-- `Scope::init_func`: register a function under its declared name. -/
def Scope.init_func (s : Scope) (f : FuncType) : Scope :=
  { s with funcs := (funcName f, f) :: s.funcs }
where
  funcName : FuncType → String
    | .native nf => nf.name
    | .custom cf => cf.name

/-- `Scope::get_func`. -/
def Scope.get_func (s : Scope) (ident : String) : Option FuncType :=
  s.funcs.lookup ident

/-- The `Engine` state (`src/engine/engine.rs`): one global frame plus the
stack of call frames.  The head of `nested` is the innermost (most recently
pushed) frame, matching the `.rev()` iteration order of the Rust `Vec`. -/
structure Eng where
  global : Scope
  nested : List Scope

/-- `Engine::push_scope`. -/
def Eng.push_scope (st : Eng) : Eng :=
  { st with nested := Scope.new :: st.nested }

/-- `Engine::pop_scope` (popping an empty stack is a no-op). -/
def Eng.pop_scope (st : Eng) : Eng :=
  { st with nested := st.nested.tail }

/-- `Engine::set_var`: write into the innermost frame if any, else global. -/
def Eng.set_var (st : Eng) (ident : String) (v : Value) : Eng :=
  match st.nested with
  | [] => { st with global := st.global.init_var ident v }
  | top :: rest => { st with nested := top.init_var ident v :: rest }

/-- `Engine::set_func`: register in the innermost frame if any, else global. -/
def Eng.set_func (st : Eng) (f : FuncType) : Eng :=
  match st.nested with
  | [] => { st with global := st.global.init_func f }
  | top :: rest => { st with nested := top.init_func f :: rest }

/-- `Engine::get_var`: search frames innermost-first, then global. -/
def Eng.get_var (st : Eng) (ident : String) : Option Value :=
  match st.nested.findSome? (fun sc => sc.get_var ident) with
  | some v => some v
  | Option.none => st.global.get_var ident

/-- The scope search of `Engine::get_func`, without the error wrapping. -/
def Eng.find_func (st : Eng) (ident : String) : Option FuncType :=
  match st.nested.findSome? (fun sc => sc.get_func ident) with
  | some f => some f
  | Option.none => st.global.get_func ident

/-- `Engine::get_func`: resolve a callee, else `UnknownFunction`. -/
def Eng.get_func (st : Eng) (ident : Node String) : Except RunError FuncType :=
  match st.find_func ident.item with
  | some f => .ok f
  | Option.none => .error (.UnknownFunction ident.item ident.data)

/-- Outcome of a fueled evaluation step: a value, a runtime error, or fuel
exhaustion (standing for a Rust run that has not returned). -/
inductive Res (α : Type) where
  | ok (v : α)
  | err (e : RunError)
  | timeout
  deriving DecidableEq, Repr

/-- The 64-bit platform's `usize::MAX`, the saturation bound of string
repetition. -/
def usizeMax : Nat := 2 ^ 64 - 1

/-- Rust `str::repeat`: the string concatenated with itself `n` times. -/
def strRepeat (s : String) (n : Nat) : String :=
  String.join (List.replicate n s)

/-- `DBig::powf`.  Modelled from the spec: the arbitrary-precision float
power is the external numeric library's; on the integer exponents that the
engine's coercion table and the specification exercise it is exact
exponentiation, which the rational model reproduces with `zpow`.  Non-integer
exponents (transcendental in the library) are outside the rational model and
are mapped to `0`; no evaluator path in the claims reaches them. -/
def powfQ (a e : ℚ) : ℚ :=
  if e.den = 1 then a ^ e.num else 0

/-- `Engine::eval_unary` (`src/engine/engine.rs`). -/
def evalUnary (op : UnaryOpType) (val : Value) (data : Span) :
    Except RunError Value :=
  let vtype := val.type_name
  match val, op with
  | .bool v, .Not => .ok (.bool (!v))
  | .int v, .Neg => .ok (.int (-v))
  | .float v, .Neg => .ok (.float (-v))
  | _, _ => .error (.InvalidUnary op vtype data)

/-- `Engine::eval_binary` (`src/engine/engine.rs`): the full coercion table,
arm for arm.  `bool as i64`/`bool as u8` casts are 0/1; `DBig::from` is the
cast `ℤ → ℚ`; `rem_euclid` is the Euclidean remainder (`Int.emod` on `ℤ`). -/
def evalBinary (val1 : Value) (op : BinaryOpType) (val2 : Value)
    (data : Span) : Except RunError Value :=
  let vtype1 := val1.type_name
  let vtype2 := val2.type_name
  match val1, op, val2 with
  -- int add
  | .int v1, .Add, .bool v2 => .ok (.int (v1 + (if v2 then 1 else 0)))
  | .int v1, .Add, .int v2 => .ok (.int (v1 + v2))
  | .int v1, .Add, .float v2 => .ok (.float ((v1 : ℚ) + v2))
  -- int sub
  | .int v1, .Sub, .bool v2 => .ok (.int (v1 - (if v2 then 1 else 0)))
  | .int v1, .Sub, .int v2 => .ok (.int (v1 - v2))
  | .int v1, .Sub, .float v2 => .ok (.float ((v1 : ℚ) - v2))
  -- int mul
  | .int v1, .Mul, .bool v2 => .ok (.int (v1 * (if v2 then 1 else 0)))
  | .int v1, .Mul, .int v2 => .ok (.int (v1 * v2))
  | .int v1, .Mul, .float v2 => .ok (.float ((v1 : ℚ) * v2))
  -- int div
  | .int v1, .Div, .int v2 => .ok (.float ((v1 : ℚ) / (v2 : ℚ)))
  | .int v1, .Div, .float v2 => .ok (.float ((v1 : ℚ) / v2))
  -- int mod
  | .int v1, .Mod, .int v2 => .ok (.int (v1 % v2))
  | .int v1, .Mod, .float v2 => .ok (.float (qRemEuclid (v1 : ℚ) v2))
  -- int pow
  | .int v1, .Pow, .int v2 => .ok (.float (powfQ (v1 : ℚ) (v2 : ℚ)))
  | .int v1, .Pow, .float v2 => .ok (.float (powfQ (v1 : ℚ) v2))
  -- int equality
  | .int v1, .Eq, .int v2 => .ok (.bool (decide (v1 = v2)))
  | .int v1, .Eq, .float v2 => .ok (.bool (decide ((v1 : ℚ) = v2)))
  -- int less than
  | .int v1, .Lt, .int v2 => .ok (.bool (decide (v1 < v2)))
  | .int v1, .Lt, .float v2 => .ok (.bool (decide ((v1 : ℚ) < v2)))
  -- int greater than
  | .int v1, .Gt, .int v2 => .ok (.bool (decide (v2 < v1)))
  | .int v1, .Gt, .float v2 => .ok (.bool (decide (v2 < (v1 : ℚ))))
  -- int not equal
  | .int v1, .NEq, .int v2 => .ok (.bool (decide (v1 ≠ v2)))
  | .int v1, .NEq, .float v2 => .ok (.bool (decide ((v1 : ℚ) ≠ v2)))
  -- int less than equal
  | .int v1, .LtEq, .int v2 => .ok (.bool (decide (v1 ≤ v2)))
  | .int v1, .LtEq, .float v2 => .ok (.bool (decide ((v1 : ℚ) ≤ v2)))
  -- int greater than equal
  | .int v1, .GtEq, .int v2 => .ok (.bool (decide (v2 ≤ v1)))
  | .int v1, .GtEq, .float v2 => .ok (.bool (decide (v2 ≤ (v1 : ℚ))))
  -- float add
  | .float v1, .Add, .bool v2 => .ok (.float (v1 + (if v2 then 1 else 0)))
  | .float v1, .Add, .int v2 => .ok (.float (v1 + (v2 : ℚ)))
  | .float v1, .Add, .float v2 => .ok (.float (v1 + v2))
  -- float sub
  | .float v1, .Sub, .bool v2 => .ok (.float (v1 - (if v2 then 1 else 0)))
  | .float v1, .Sub, .int v2 => .ok (.float (v1 - (v2 : ℚ)))
  | .float v1, .Sub, .float v2 => .ok (.float (v1 - v2))
  -- float mul
  | .float v1, .Mul, .bool v2 => .ok (.float (v1 * (if v2 then 1 else 0)))
  | .float v1, .Mul, .int v2 => .ok (.float (v1 * (v2 : ℚ)))
  | .float v1, .Mul, .float v2 => .ok (.float (v1 * v2))
  -- float div
  | .float v1, .Div, .int v2 => .ok (.float (v1 / (v2 : ℚ)))
  | .float v1, .Div, .float v2 => .ok (.float (v1 / v2))
  -- float mod
  | .float v1, .Mod, .int v2 => .ok (.float (qRemEuclid v1 (v2 : ℚ)))
  | .float v1, .Mod, .float v2 => .ok (.float (qRemEuclid v1 v2))
  -- float pow
  | .float v1, .Pow, .int v2 => .ok (.float (powfQ v1 (v2 : ℚ)))
  | .float v1, .Pow, .float v2 => .ok (.float (powfQ v1 v2))
  -- float equality
  | .float v1, .Eq, .int v2 => .ok (.bool (decide (v1 = (v2 : ℚ))))
  | .float v1, .Eq, .float v2 => .ok (.bool (decide (v1 = v2)))
  -- float less than
  | .float v1, .Lt, .int v2 => .ok (.bool (decide (v1 < (v2 : ℚ))))
  | .float v1, .Lt, .float v2 => .ok (.bool (decide (v1 < v2)))
  -- float greater than
  | .float v1, .Gt, .int v2 => .ok (.bool (decide ((v2 : ℚ) < v1)))
  | .float v1, .Gt, .float v2 => .ok (.bool (decide (v2 < v1)))
  -- float not equal
  | .float v1, .NEq, .int v2 => .ok (.bool (decide (v1 ≠ (v2 : ℚ))))
  | .float v1, .NEq, .float v2 => .ok (.bool (decide (v1 ≠ v2)))
  -- float less than equal
  | .float v1, .LtEq, .int v2 => .ok (.bool (decide (v1 ≤ (v2 : ℚ))))
  | .float v1, .LtEq, .float v2 => .ok (.bool (decide (v1 ≤ v2)))
  -- float greater than equal
  | .float v1, .GtEq, .int v2 => .ok (.bool (decide ((v2 : ℚ) ≤ v1)))
  | .float v1, .GtEq, .float v2 => .ok (.bool (decide (v2 ≤ v1)))
  -- string add (concatenation with the right operand's display form)
  | .string v1, .Add, .bool v2 => .ok (.string (v1 ++ Value.display (.bool v2)))
  | .string v1, .Add, .int v2 => .ok (.string (v1 ++ Value.display (.int v2)))
  | .string v1, .Add, .float v2 => .ok (.string (v1 ++ Value.display (.float v2)))
  | .string v1, .Add, .string v2 => .ok (.string (v1 ++ v2))
  -- string mul (repetition; `bool as usize` is 0/1)
  | .string v1, .Mul, .bool v2 => .ok (.string (strRepeat v1 (if v2 then 1 else 0)))
  | .string v1, .Mul, .int v2 =>
      -- negative sign: empty string; magnitude beyond usize: saturate
      if v2 < 0 then .ok (.string "")
      else if v2 ≤ (usizeMax : ℤ) then .ok (.string (strRepeat v1 v2.toNat))
      else .ok (.string (strRepeat v1 usizeMax))
  -- string comparisons
  | .string v1, .Eq, .string v2 => .ok (.bool (decide (v1 = v2)))
  | .string v1, .Lt, .string v2 => .ok (.bool (decide (v1 < v2)))
  | .string v1, .Gt, .string v2 => .ok (.bool (decide (v2 < v1)))
  | .string v1, .NEq, .string v2 => .ok (.bool (decide (v1 ≠ v2)))
  | .string v1, .LtEq, .string v2 => .ok (.bool (decide (v1 ≤ v2)))
  | .string v1, .GtEq, .string v2 => .ok (.bool (decide (v2 ≤ v1)))
  -- boolean comparisons (Rust Ord on bool: false < true)
  | .bool v1, .Eq, .bool v2 => .ok (.bool (v1 == v2))
  | .bool v1, .Lt, .bool v2 => .ok (.bool (!v1 && v2))
  | .bool v1, .Gt, .bool v2 => .ok (.bool (v1 && !v2))
  | .bool v1, .NEq, .bool v2 => .ok (.bool (v1 != v2))
  | .bool v1, .LtEq, .bool v2 => .ok (.bool (!v1 || v2))
  | .bool v1, .GtEq, .bool v2 => .ok (.bool (v1 || !v2))
  -- boolean and / or (eager)
  | .bool v1, .And, .bool v2 => .ok (.bool (v1 && v2))
  | .bool v1, .Or, .bool v2 => .ok (.bool (v1 || v2))
  -- failure case
  | _, _, _ => .error (.InvalidBinary op vtype1 vtype2 data)
where
  /-- `RemEuclid` on rationals: remainder in `[0, |d|)`. -/
  qRemEuclid (a d : ℚ) : ℚ := a - |d| * ⌊a / |d|⌋

/-- The argument-binding loop of `Engine::eval_func`: each `(param, value)`
pair of `func.params.iter().zip(values)` is bound via `set_var`. -/
def bindParams (st : Eng) (l : List (Node String × Value)) : Eng :=
  l.foldl (fun s pv => s.set_var pv.1.item pv.2) st

mutual

/-- `Engine::eval` (`src/engine/engine.rs`): structural recursion over
`Expr`, fueled.  The source's `match` has no `Expr::Assign` arm; modelled
from the spec (§3: the `Assign` statement form evaluates the right side,
binds it, and the statement yields `None`). -/
def evalExpr : Nat → Eng → Node Expr → Res Value × Eng
  | 0, st, _ => (.timeout, st)
  | _ + 1, st, ⟨_, .none⟩ => (.ok .none, st)
  | _ + 1, st, ⟨_, .bool b⟩ => (.ok (.bool b), st)
  | _ + 1, st, ⟨_, .int n⟩ => (.ok (.int n), st)
  | _ + 1, st, ⟨_, .float q⟩ => (.ok (.float q), st)
  | _ + 1, st, ⟨_, .string s⟩ => (.ok (.string s), st)
  | fuel + 1, st, ⟨_, .call ident args⟩ =>
    match evalArgs fuel st args with
    | (.ok vals, st1) => evalFunc fuel st1 ident vals
    | (.err e, st1) => (.err e, st1)
    | (.timeout, st1) => (.timeout, st1)
  | fuel + 1, st, ⟨sp, .neg inner⟩ =>
    match evalExpr fuel st inner with
    | (.ok v, st1) =>
      match evalUnary .Neg v sp with
      | .ok v2 => (.ok v2, st1)
      | .error e => (.err e, st1)
    | (.err e, st1) => (.err e, st1)
    | (.timeout, st1) => (.timeout, st1)
  | fuel + 1, st, ⟨sp, .not inner⟩ =>
    match evalExpr fuel st inner with
    | (.ok v, st1) =>
      match evalUnary .Not v sp with
      | .ok v2 => (.ok v2, st1)
      | .error e => (.err e, st1)
    | (.err e, st1) => (.err e, st1)
    | (.timeout, st1) => (.timeout, st1)
  | fuel + 1, st, ⟨sp, .add l r⟩ => evalBinop fuel st l .Add r sp
  | fuel + 1, st, ⟨sp, .sub l r⟩ => evalBinop fuel st l .Sub r sp
  | fuel + 1, st, ⟨sp, .mul l r⟩ => evalBinop fuel st l .Mul r sp
  | fuel + 1, st, ⟨sp, .div l r⟩ => evalBinop fuel st l .Div r sp
  | fuel + 1, st, ⟨sp, .mod l r⟩ => evalBinop fuel st l .Mod r sp
  | fuel + 1, st, ⟨sp, .pow l r⟩ => evalBinop fuel st l .Pow r sp
  | fuel + 1, st, ⟨sp, .eq l r⟩ => evalBinop fuel st l .Eq r sp
  | fuel + 1, st, ⟨sp, .lt l r⟩ => evalBinop fuel st l .Lt r sp
  | fuel + 1, st, ⟨sp, .gt l r⟩ => evalBinop fuel st l .Gt r sp
  | fuel + 1, st, ⟨sp, .neq l r⟩ => evalBinop fuel st l .NEq r sp
  | fuel + 1, st, ⟨sp, .lteq l r⟩ => evalBinop fuel st l .LtEq r sp
  | fuel + 1, st, ⟨sp, .gteq l r⟩ => evalBinop fuel st l .GtEq r sp
  | fuel + 1, st, ⟨sp, .and l r⟩ => evalBinop fuel st l .And r sp
  | fuel + 1, st, ⟨sp, .or l r⟩ => evalBinop fuel st l .Or r sp
  | _ + 1, st, ⟨sp, .var ident⟩ =>
    match st.get_var ident with
    | some v => (.ok v, st)
    | Option.none => (.err (.UnknownVariable ident sp), st)
  | fuel + 1, st, ⟨_, .assign ident e⟩ =>
    match evalExpr fuel st e with
    | (.ok v, st1) => (.ok .none, st1.set_var ident.item v)
    | (.err e, st1) => (.err e, st1)
    | (.timeout, st1) => (.timeout, st1)
  | fuel + 1, st, ⟨_, .walrus ident e⟩ =>
    match evalExpr fuel st e with
    | (.ok v, st1) => (.ok v, st1.set_var ident.item v)
    | (.err e, st1) => (.err e, st1)
    | (.timeout, st1) => (.timeout, st1)
  -- the Ternary arm of `Engine::eval` (engine.rs:334-351) destructures
  -- `Ternary(lhs, cond, rhs)`: it evaluates the SECOND field as the
  -- condition (TypeMismatch pinned to that field's span) and returns the
  -- FIRST field on `true`, the third on `false` — even though the parser
  -- builds `Ternary(condition, true-clause, false-clause)` with the
  -- condition in the first field (expr.rs:352)
  | fuel + 1, st, ⟨_, .ternary lhs cond rhs⟩ =>
    match evalExpr fuel st cond with
    | (.ok (.bool true), st1) => evalExpr fuel st1 lhs
    | (.ok (.bool false), st1) => evalExpr fuel st1 rhs
    | (.ok v, st1) =>
      (.err (.TypeMismatch "'bool'" ("'" ++ v.type_name ++ "'") cond.data), st1)
    | (.err e, st1) => (.err e, st1)
    | (.timeout, st1) => (.timeout, st1)

/-- The shared shape of the fourteen binary-operator arms of `Engine::eval`:
left operand, then right operand, then `eval_binary`. -/
def evalBinop : Nat → Eng → Node Expr → BinaryOpType → Node Expr → Span →
    Res Value × Eng
  | 0, st, _, _, _, _ => (.timeout, st)
  | fuel + 1, st, l, op, r, sp =>
    match evalExpr fuel st l with
    | (.ok v1, st1) =>
      match evalExpr fuel st1 r with
      | (.ok v2, st2) =>
        match evalBinary v1 op v2 sp with
        | .ok v => (.ok v, st2)
        | .error e => (.err e, st2)
      | (.err e, st2) => (.err e, st2)
      | (.timeout, st2) => (.timeout, st2)
    | (.err e, st1) => (.err e, st1)
    | (.timeout, st1) => (.timeout, st1)

/-- The argument loop of the `Expr::Call` arm of `Engine::eval`: evaluate
the arguments left to right, propagating the first error. -/
def evalArgs : Nat → Eng → List (Node Expr) → Res (List Value) × Eng
  | 0, st, _ => (.timeout, st)
  | _ + 1, st, [] => (.ok [], st)
  | fuel + 1, st, e :: rest =>
    match evalExpr fuel st e with
    | (.ok v, st1) =>
      match evalArgs fuel st1 rest with
      | (.ok vs, st2) => (.ok (v :: vs), st2)
      | (.err er, st2) => (.err er, st2)
      | (.timeout, st2) => (.timeout, st2)
    | (.err er, st1) => (.err er, st1)
    | (.timeout, st1) => (.timeout, st1)

/-- `Engine::eval_statement` (`src/engine/engine.rs`). -/
def evalStatement : Nat → Eng → Node Statement → Res Value × Eng
  | 0, st, _ => (.timeout, st)
  | fuel + 1, st, ⟨_, .expr e⟩ => evalExpr fuel st e
  | _ + 1, st, ⟨_, .func f⟩ => (.ok .none, st.set_func (.custom f.item))
  | fuel + 1, st, ⟨_, .letAssign ident e⟩ =>
    match evalExpr fuel st e with
    | (.ok v, st1) => (.ok .none, st1.set_var ident.item v)
    | (.err er, st1) => (.err er, st1)
    | (.timeout, st1) => (.timeout, st1)
  | fuel + 1, st, ⟨_, .assign ident e⟩ =>
    match evalExpr fuel st e with
    | (.ok v, st1) => (.ok .none, st1.set_var ident.item v)
    | (.err er, st1) => (.err er, st1)
    | (.timeout, st1) => (.timeout, st1)
  | fuel + 1, st, ⟨_, .whileLoop cond body⟩ => evalWhile fuel st cond body

/-- The `Statement::While` loop of `Engine::eval_statement`: the condition
must reduce to `Bool`; while `true`, the body statements run in order with
errors propagating immediately; on `false` the loop yields `None`. -/
def evalWhile : Nat → Eng → Node Expr → List (Node Statement) →
    Res Value × Eng
  | 0, st, _, _ => (.timeout, st)
  | fuel + 1, st, cond, body =>
    match evalExpr fuel st cond with
    | (.ok (.bool true), st1) =>
      match evalBody fuel st1 body .none with
      | (.ok _, st2) => evalWhile fuel st2 cond body
      | (.err e, st2) => (.err e, st2)
      | (.timeout, st2) => (.timeout, st2)
    | (.ok (.bool false), st1) => (.ok .none, st1)
    | (.ok v, st1) =>
      (.err (.TypeMismatch "bool" v.type_name cond.data), st1)
    | (.err e, st1) => (.err e, st1)
    | (.timeout, st1) => (.timeout, st1)

/-- The body loop shared by `Engine::eval_func` (keeping the value of the
last statement) and the `While` arm (which discards it): run the statements
in order, returning the first error, else the last statement's value. -/
def evalBody : Nat → Eng → List (Node Statement) → Value → Res Value × Eng
  | 0, st, _, _ => (.timeout, st)
  | _ + 1, st, [], output => (.ok output, st)
  | fuel + 1, st, s :: rest, _ =>
    match evalStatement fuel st s with
    | (.ok v, st1) => evalBody fuel st1 rest v
    | (.err e, st1) => (.err e, st1)
    | (.timeout, st1) => (.timeout, st1)

/-- `Engine::eval_func` (`src/engine/engine.rs`): resolve the callee, check
the parameter count, push one call frame, run the native callback or the
custom body, and pop the frame on every exit path before returning. -/
def evalFunc : Nat → Eng → Node String → List Value → Res Value × Eng
  | 0, st, _, _ => (.timeout, st)
  | fuel + 1, st, ident, values =>
    match st.get_func ident with
    | .error e => (.err e, st)
    | .ok func =>
      if func.param_count < values.length then
        (.err (.ParameterCount func.param_count values.length ident.data), st)
      else
        let st1 := st.push_scope
        match func with
        | .native nf =>
          match nf.callback values with
          | .ok v => (.ok v, st1.pop_scope)
          | .error message =>
            (.err (.NativeCallError ident.data message), st1.pop_scope)
        | .custom cf =>
          let st2 := bindParams st1 (cf.params.zip values)
          match evalBody fuel st2 cf.body .none with
          | (.ok v, st3) => (.ok v, st3.pop_scope)
          | (.err e, st3) => (.err e, st3.pop_scope)
          | (.timeout, st3) => (.timeout, st3)

end

/-- Token kinds.  Modelled from the spec: the tokenizer is an external
collaborator producing `(kind, span)` pairs (§6); the kinds are those the
parser (`src/parser/ast/expr.rs`) matches on.  Numeric and literal tokens
carry their parsed value — the textual decoding (`Expr::parse_int` /
`parse_float` over the token's string) is the numeric library's concern and
never fails on tokens the lexer classified as literals. -/
inductive Token where
  | none
  | bool (b : Bool)
  | int (n : ℤ)
  | ufloat (q : ℚ)
  | string (s : String)
  | ident (s : String)
  | openParen
  | closeParen
  | comma
  | question
  | colon
  | assign
  | walrus
  | not
  | add
  | sub
  | mul
  | div
  | mod
  | pow
  | eq
  | lt
  | gt
  | neq
  | lteq
  | gteq
  | and
  | or
  deriving DecidableEq, Repr

/-- The `Display` text of a token, used in "found ..." parse errors.
Modelled from the spec: the `Display` impl lives with the external
tokenizer. -/
def Token.text : Token → String
  | .none => "none"
  | .bool b => toString b
  | .int n => toString n
  | .ufloat q => toString q
  | .string s => s
  | .ident s => s
  | .openParen => "("
  | .closeParen => ")"
  | .comma => ","
  | .question => "?"
  | .colon => ":"
  | .assign => "="
  | .walrus => ":="
  | .not => "!"
  | .add => "+"
  | .sub => "-"
  | .mul => "*"
  | .div => "/"
  | .mod => "%"
  | .pow => "**"
  | .eq => "=="
  | .lt => "<"
  | .gt => ">"
  | .neq => "!="
  | .lteq => "<="
  | .gteq => ">="
  | .and => "and"
  | .or => "or"

/-- Parse errors (`src/parser/error.rs`); the wrapped numeric `ParseError`
of the external library is carried as its message text. -/
inductive PError where
  | UnexpectedEnd (expected : String) (data : Span)
  | InvalidToken (part : String) (data : Span)
  | UnclosedString (data : Span)
  | ParseNumError (error : String) (data : Span)
  | UnexpectedToken (expected found : String) (data : Span)
  | UnclosedBrace (data : Span)
  | InvalidAssignment (data : Span)
  | MixedTabsAndSpaces (data : Span) (tab : Bool)
  deriving DecidableEq, Repr

/-- The peekable token cursor: the remaining `(kind, span)` pairs. -/
abbrev Toks := List (Token × Span)

/-- The span the lexer reports for end-of-input errors; its position is the
external lexer's concern and plays no role in the claims. -/
def eofSpan : Span := ⟨0, 0⟩

/-- Result of a fueled parse step: a parsed value plus the remaining tokens,
a parse error, or fuel exhaustion. -/
inductive PRes (α : Type) where
  | ok (a : α) (rest : Toks)
  | err (e : PError)
  | timeout
  deriving Repr

mutual

/-- `Expr::parse`: parse an atom, then climb from the loosest tier. -/
def parse : Nat → Toks → PRes (Node Expr)
  | 0, _ => .timeout
  | fuel + 1, toks =>
    match parse_atom fuel toks with
    | .ok lhs rest => parse_with_lhs fuel lhs rest
    | .err e => .err e
    | .timeout => .timeout

/-- `Expr::parse_with_lhs`: start parsing at the lowest-precedence tier. -/
def parse_with_lhs : Nat → Node Expr → Toks → PRes (Node Expr)
  | 0, _, _ => .timeout
  | fuel + 1, lhs, toks => parse_assign fuel lhs toks

/-- `Expr::parse_var_or_fn`: a bare identifier is a `Var` unless `(`
follows, in which case a comma-separated argument list terminated by `)`
builds a `Call`. -/
def parse_var_or_fn : Nat → Node String → Toks → PRes (Node Expr)
  | 0, _, _ => .timeout
  | fuel + 1, lhs, toks =>
    match toks with
    | (Token.openParen, _) :: rest =>
      match
        (match rest with
          | [] => PRes.err (.UnexpectedEnd "expression or ')'" eofSpan)
          | (Token.closeParen, _) :: _ => PRes.ok [] rest
          | _ => parse_params fuel rest) with
      | .ok params rest2 =>
        match rest2 with
        | [] => .err (.UnexpectedEnd "')'" eofSpan)
        | (Token.closeParen, csp) :: rest3 =>
          .ok ⟨⟨lhs.data.lo, csp.hi⟩, .call lhs params⟩ rest3
        | (tok, sp) :: _ =>
          .err (.UnexpectedToken "')'" ("'" ++ tok.text ++ "'") sp)
      | .err e => .err e
      | .timeout => .timeout
    | _ => .ok ⟨lhs.data, .var lhs.item⟩ toks

/-- The argument loop of `Expr::parse_var_or_fn`: parse an expression, then
a comma continues the list and anything else ends it; end-of-input inside
the list is an error naming `',' or ')'`. -/
def parse_params : Nat → Toks → PRes (List (Node Expr))
  | 0, _ => .timeout
  | fuel + 1, toks =>
    match parse fuel toks with
    | .ok p rest =>
      match rest with
      | (Token.comma, _) :: rest2 =>
        match parse_params fuel rest2 with
        | .ok ps rest3 => .ok (p :: ps) rest3
        | .err e => .err e
        | .timeout => .timeout
      | [] => .err (.UnexpectedEnd "',' or ')'" eofSpan)
      | _ :: _ => .ok [p] rest
    | .err e => .err e
    | .timeout => .timeout

/-- `Expr::parse_atom`: literals, identifiers (via `parse_var_or_fn`),
prefix `!`/`-` (whose operand re-enters `parse_powers`), and parenthesized
expressions. -/
def parse_atom : Nat → Toks → PRes (Node Expr)
  | 0, _ => .timeout
  | fuel + 1, toks =>
    match toks with
    | [] => .err (.UnexpectedEnd "expression" eofSpan)
    | (Token.none, span) :: rest => .ok ⟨span, .none⟩ rest
    | (Token.int n, span) :: rest => .ok ⟨span, .int n⟩ rest
    | (Token.ufloat q, span) :: rest => .ok ⟨span, .float q⟩ rest
    | (Token.bool b, span) :: rest => .ok ⟨span, .bool b⟩ rest
    | (Token.string s, span) :: rest => .ok ⟨span, .string s⟩ rest
    | (Token.ident s, span) :: rest => parse_var_or_fn fuel ⟨span, s⟩ rest
    | (Token.not, span) :: rest =>
      match parse_atom fuel rest with
      | .ok nested rest2 =>
        match parse_powers fuel nested rest2 with
        | .ok nested2 rest3 =>
          .ok ⟨⟨span.lo, nested2.data.hi⟩, .not nested2⟩ rest3
        | .err e => .err e
        | .timeout => .timeout
      | .err e => .err e
      | .timeout => .timeout
    | (Token.sub, span) :: rest =>
      match parse_atom fuel rest with
      | .ok nested rest2 =>
        match parse_powers fuel nested rest2 with
        | .ok nested2 rest3 =>
          .ok ⟨⟨span.lo, nested2.data.hi⟩, .neg nested2⟩ rest3
        | .err e => .err e
        | .timeout => .timeout
      | .err e => .err e
      | .timeout => .timeout
    | (Token.openParen, open_span) :: rest =>
      match parse fuel rest with
      | .ok inner rest2 =>
        match rest2 with
        | (Token.closeParen, close_span) :: rest3 =>
          .ok ⟨⟨open_span.lo, close_span.hi⟩, inner.item⟩ rest3
        | _ => .err (.UnclosedBrace open_span)
      | .err e => .err e
      | .timeout => .timeout
    | (tok, span) :: _ =>
      .err (.UnexpectedToken "expression" ("'" ++ tok.text ++ "'") span)

/-- `Expr::parse_powers`: right-associative `**`; anything else returns the
left operand unconsumed (no fall-through to a lower tier). -/
def parse_powers : Nat → Node Expr → Toks → PRes (Node Expr)
  | 0, _, _ => .timeout
  | fuel + 1, lhs, toks =>
    match toks with
    | (Token.pow, _) :: rest =>
      match parse_atom fuel rest with
      | .ok rhs rest2 =>
        match parse_powers fuel rhs rest2 with
        | .ok rhs2 rest3 =>
          .ok ⟨⟨lhs.data.lo, rhs2.data.hi⟩, .pow lhs rhs2⟩ rest3
        | .err e => .err e
        | .timeout => .timeout
      | .err e => .err e
      | .timeout => .timeout
    | _ => .ok lhs toks

/-- `Expr::parse_products`: `*`, `/`, `%`; the right operand re-enters
`parse_powers`, and the built node re-enters the whole climb. -/
def parse_products : Nat → Node Expr → Toks → PRes (Node Expr)
  | 0, _, _ => .timeout
  | fuel + 1, lhs, toks =>
    match
      (match toks with
        | (Token.mul, _) :: rest => some (Expr.mul, rest)
        | (Token.div, _) :: rest => some (Expr.div, rest)
        | (Token.mod, _) :: rest => some (Expr.mod, rest)
        | _ => Option.none) with
    | Option.none => parse_powers fuel lhs toks
    | some (op, rest) =>
      match parse_atom fuel rest with
      | .ok rhs rest2 =>
        match parse_powers fuel rhs rest2 with
        | .ok rhs2 rest3 =>
          parse_with_lhs fuel ⟨⟨lhs.data.lo, rhs2.data.hi⟩, op lhs rhs2⟩ rest3
        | .err e => .err e
        | .timeout => .timeout
      | .err e => .err e
      | .timeout => .timeout

/-- `Expr::parse_sums`: `+`, `-`; the right operand re-enters
`parse_products`, and the built node re-enters the whole climb. -/
def parse_sums : Nat → Node Expr → Toks → PRes (Node Expr)
  | 0, _, _ => .timeout
  | fuel + 1, lhs, toks =>
    match
      (match toks with
        | (Token.add, _) :: rest => some (Expr.add, rest)
        | (Token.sub, _) :: rest => some (Expr.sub, rest)
        | _ => Option.none) with
    | Option.none => parse_products fuel lhs toks
    | some (op, rest) =>
      match parse_atom fuel rest with
      | .ok rhs rest2 =>
        match parse_products fuel rhs rest2 with
        | .ok rhs2 rest3 =>
          parse_with_lhs fuel ⟨⟨lhs.data.lo, rhs2.data.hi⟩, op lhs rhs2⟩ rest3
        | .err e => .err e
        | .timeout => .timeout
      | .err e => .err e
      | .timeout => .timeout

/-- `Expr::parse_comparisons`: the six comparison operators; the right
operand re-enters `parse_sums`, and the built node re-enters
`parse_comparisons` itself as the new left operand (left-associative
re-chaining). -/
def parse_comparisons : Nat → Node Expr → Toks → PRes (Node Expr)
  | 0, _, _ => .timeout
  | fuel + 1, lhs, toks =>
    match
      (match toks with
        | (Token.eq, _) :: rest => some (Expr.eq, rest)
        | (Token.lt, _) :: rest => some (Expr.lt, rest)
        | (Token.gt, _) :: rest => some (Expr.gt, rest)
        | (Token.neq, _) :: rest => some (Expr.neq, rest)
        | (Token.lteq, _) :: rest => some (Expr.lteq, rest)
        | (Token.gteq, _) :: rest => some (Expr.gteq, rest)
        | _ => Option.none) with
    | Option.none => parse_sums fuel lhs toks
    | some (op, rest) =>
      match parse_atom fuel rest with
      | .ok rhs rest2 =>
        match parse_sums fuel rhs rest2 with
        | .ok rhs2 rest3 =>
          parse_comparisons fuel ⟨⟨lhs.data.lo, rhs2.data.hi⟩, op lhs rhs2⟩ rest3
        | .err e => .err e
        | .timeout => .timeout
      | .err e => .err e
      | .timeout => .timeout

/-- `Expr::parse_ands`: `and`; the right operand re-enters
`parse_comparisons`, and the built node re-enters the whole climb. -/
def parse_ands : Nat → Node Expr → Toks → PRes (Node Expr)
  | 0, _, _ => .timeout
  | fuel + 1, lhs, toks =>
    match toks with
    | (Token.and, _) :: rest =>
      match parse_atom fuel rest with
      | .ok rhs rest2 =>
        match parse_comparisons fuel rhs rest2 with
        | .ok rhs2 rest3 =>
          parse_with_lhs fuel ⟨⟨lhs.data.lo, rhs2.data.hi⟩, .and lhs rhs2⟩ rest3
        | .err e => .err e
        | .timeout => .timeout
      | .err e => .err e
      | .timeout => .timeout
    | _ => parse_comparisons fuel lhs toks

/-- `Expr::parse_ors`, faithful to the source: the or tier peeks for
`Token::And` (not `Token::Or`) and builds an `Expr::And` node (lines
300-312 of `src/parser/ast/expr.rs`). -/
def parse_ors : Nat → Node Expr → Toks → PRes (Node Expr)
  | 0, _, _ => .timeout
  | fuel + 1, lhs, toks =>
    match toks with
    | (Token.and, _) :: rest =>
      match parse_atom fuel rest with
      | .ok rhs rest2 =>
        match parse_ands fuel rhs rest2 with
        | .ok rhs2 rest3 =>
          parse_with_lhs fuel ⟨⟨lhs.data.lo, rhs2.data.hi⟩, .and lhs rhs2⟩ rest3
        | .err e => .err e
        | .timeout => .timeout
      | .err e => .err e
      | .timeout => .timeout
    | _ => parse_ands fuel lhs toks

/-- `Expr::parse_ternaries`: `cond ? a : b`, right-associative; a missing
`:` after a matched `?` is a parse error naming the expected delimiter. -/
def parse_ternaries : Nat → Node Expr → Toks → PRes (Node Expr)
  | 0, _, _ => .timeout
  | fuel + 1, lhs, toks =>
    match toks with
    | (Token.question, _) :: rest =>
      match parse_atom fuel rest with
      | .ok tc rest2 =>
        match parse_ternaries fuel tc rest2 with
        | .ok tc2 rest3 =>
          match rest3 with
          | [] => .err (.UnexpectedEnd "ternary delimiter ':'" eofSpan)
          | (Token.colon, _) :: rest4 =>
            match parse_atom fuel rest4 with
            | .ok fc rest5 =>
              match parse_ternaries fuel fc rest5 with
              | .ok fc2 rest6 =>
                .ok ⟨⟨lhs.data.lo, fc2.data.hi⟩, .ternary lhs tc2 fc2⟩ rest6
              | .err e => .err e
              | .timeout => .timeout
            | .err e => .err e
            | .timeout => .timeout
          | (tok, sp) :: _ =>
            .err (.UnexpectedToken "ternary delimiter ':'"
              ("'" ++ tok.text ++ "'") sp)
        | .err e => .err e
        | .timeout => .timeout
      | .err e => .err e
      | .timeout => .timeout
    | _ => parse_ors fuel lhs toks

/-- `Expr::parse_assign`: `=` / `:=`, right-associative; the left side must
already be a bare variable reference, else `InvalidAssignment` pinned to the
operator's span. -/
def parse_assign : Nat → Node Expr → Toks → PRes (Node Expr)
  | 0, _, _ => .timeout
  | fuel + 1, lhs, toks =>
    match
      (match toks with
        | (Token.assign, sp) :: rest => some (Expr.assign, sp, rest)
        | (Token.walrus, sp) :: rest => some (Expr.walrus, sp, rest)
        | _ => Option.none) with
    | Option.none => parse_ternaries fuel lhs toks
    | some (op, assign_span, rest) =>
      match lhs with
      | ⟨span, .var v⟩ =>
        match parse_atom fuel rest with
        | .ok rhs rest2 =>
          match parse_assign fuel rhs rest2 with
          | .ok rhs2 rest3 =>
            .ok ⟨⟨span.lo, rhs2.data.hi⟩, op ⟨span, v⟩ rhs2⟩ rest3
          | .err e => .err e
          | .timeout => .timeout
        | .err e => .err e
        | .timeout => .timeout
      | _ => .err (.InvalidAssignment assign_span)

end

/-- Root-shape discriminator: is the expression a `Pow` node? -/
def isPowRoot : Expr → Bool
  | .pow _ _ => true
  | _ => false

instance : DecidableEq (Except RunError Value) := fun x y =>
  match x, y with
  | .ok a, .ok b =>
    if h : a = b then isTrue (by rw [h]) else isFalse (by simp [h])
  | .error a, .error b =>
    if h : a = b then isTrue (by rw [h]) else isFalse (by simp [h])
  | .ok _, .error _ => isFalse (by simp)
  | .error _, .ok _ => isFalse (by simp)

section EvalBinaryClaims

/-- C3: The `Mod` operator on `Int % Int` computes the Euclidean remainder:
for every dividend `n` and non-zero divisor `d` the result is the integer
`n % d` (Euclidean `emod`), which satisfies `0 ≤ r < |d|` regardless of the
operands' signs. -/
theorem mod_euclidean_range (n d : ℤ) (sp : Span) (hd : d ≠ 0) :
    evalBinary (.int n) .Mod (.int d) sp = .ok (.int (n % d)) ∧
    0 ≤ n % d ∧ n % d < |d| := by
  refine ⟨rfl, Int.emod_nonneg n hd, ?_⟩
  rcases lt_or_gt_of_ne hd with h | h
  · calc n % d = n % -(-d) := by rw [neg_neg]
      _ = n % (-d) := Int.emod_neg n (-d)
      _ < -d := Int.emod_lt_of_pos n (by omega)
      _ = |d| := (abs_of_neg h).symm
  · calc n % d < d := Int.emod_lt_of_pos n h
      _ = |d| := (abs_of_pos h).symm

/-- Witness for C3: `7 % -3` yields `Int(1)` and `-7 % 3` yields `Int(2)`. -/
theorem mod_euclidean_range_witness :
    ((-3 : ℤ) ≠ 0 ∧
      evalBinary (.int 7) .Mod (.int (-3)) ⟨0, 0⟩ = .ok (.int 1)) ∧
    ((3 : ℤ) ≠ 0 ∧
      evalBinary (.int (-7)) .Mod (.int 3) ⟨0, 0⟩ = .ok (.int 2)) := by
  refine ⟨⟨by decide, ?_⟩, ⟨by decide, ?_⟩⟩
  · rw [(mod_euclidean_range 7 (-3) ⟨0, 0⟩ (by decide)).1]; decide
  · rw [(mod_euclidean_range (-7) 3 ⟨0, 0⟩ (by decide)).1]; decide

/-- C4: `Div` and `Pow` on two `Int` operands both produce a `Float`: the
quotient is the true (exact) quotient of the operands, and the power is a
`Float` even for two integer operands. -/
theorem div_pow_promote_float (a b : ℤ) (sp : Span) :
    (b ≠ 0 → evalBinary (.int a) .Div (.int b) sp =
      .ok (.float ((a : ℚ) / (b : ℚ)))) ∧
    evalBinary (.int a) .Pow (.int b) sp =
      .ok (.float (powfQ (a : ℚ) (b : ℚ))) :=
  ⟨fun _ => rfl, rfl⟩

/-- Witness for C4: `1 / 2` evaluates to `Float(0.5)` and `2 ** 10`
evaluates to `Float(1024)`, not `Int`. -/
theorem div_pow_promote_float_witness :
    ((2 : ℤ) ≠ 0 ∧
      evalBinary (.int 1) .Div (.int 2) ⟨0, 0⟩ = .ok (.float (1 / 2))) ∧
    evalBinary (.int 2) .Pow (.int 10) ⟨0, 0⟩ = .ok (.float 1024) := by
  refine ⟨⟨by decide, ?_⟩, ?_⟩
  · rw [(div_pow_promote_float 1 2 ⟨0, 0⟩).1 (by decide),
      show ((1 : ℤ) : ℚ) / ((2 : ℤ) : ℚ) = 1 / 2 by norm_num]
  · rw [(div_pow_promote_float 2 10 ⟨0, 0⟩).2,
      show powfQ ((2 : ℤ) : ℚ) ((10 : ℤ) : ℚ) = 1024 from by
        simp only [powfQ, Rat.den_intCast, if_pos rfl, Rat.num_intCast]
        push_cast
        norm_num]

/-- C9: `String * Int` repeats the string: a count in `[0, usize::MAX]`
repeats it that many times, a negative count yields the empty string, and a
count above `usize::MAX` saturates to `usize::MAX` repetitions. -/
theorem string_mul_int_repeat (s : String) (n : ℤ) (sp : Span) :
    (0 ≤ n → n ≤ (usizeMax : ℤ) →
      evalBinary (.string s) .Mul (.int n) sp =
        .ok (.string (strRepeat s n.toNat))) ∧
    (n < 0 → evalBinary (.string s) .Mul (.int n) sp = .ok (.string "")) ∧
    ((usizeMax : ℤ) < n →
      evalBinary (.string s) .Mul (.int n) sp =
        .ok (.string (strRepeat s usizeMax))) := by
  refine ⟨fun h1 h2 => ?_, fun h => ?_, fun h => ?_⟩
  · rw [show evalBinary (.string s) .Mul (.int n) sp =
      (if n < 0 then .ok (.string "")
        else if n ≤ (usizeMax : ℤ) then .ok (.string (strRepeat s n.toNat))
        else .ok (.string (strRepeat s usizeMax))) from rfl,
      if_neg (by omega), if_pos h2]
  · rw [show evalBinary (.string s) .Mul (.int n) sp =
      (if n < 0 then .ok (.string "")
        else if n ≤ (usizeMax : ℤ) then .ok (.string (strRepeat s n.toNat))
        else .ok (.string (strRepeat s usizeMax))) from rfl,
      if_pos h]
  · rw [show evalBinary (.string s) .Mul (.int n) sp =
      (if n < 0 then .ok (.string "")
        else if n ≤ (usizeMax : ℤ) then .ok (.string (strRepeat s n.toNat))
        else .ok (.string (strRepeat s usizeMax))) from rfl,
      if_neg (by omega), if_neg (by omega)]

/-- Witness for C9: `"ab" * 3` yields `String("ababab")` and `"ab" * -1`
yields `String("")`. -/
theorem string_mul_int_repeat_witness :
    ((0 : ℤ) ≤ 3 ∧ (3 : ℤ) ≤ (usizeMax : ℤ) ∧
      evalBinary (.string "ab") .Mul (.int 3) ⟨0, 0⟩ =
        .ok (.string "ababab")) ∧
    ((-1 : ℤ) < 0 ∧
      evalBinary (.string "ab") .Mul (.int (-1)) ⟨0, 0⟩ =
        .ok (.string "")) := by
  refine ⟨⟨by decide, by decide, ?_⟩, ⟨by decide, ?_⟩⟩
  · rw [(string_mul_int_repeat "ab" 3 ⟨0, 0⟩).1 (by decide) (by decide)]
    decide
  · exact (string_mul_int_repeat "ab" (-1) ⟨0, 0⟩).2.1 (by decide)

/-- C10: every binary operation with a `None` operand (on either side) is an
`InvalidBinary` runtime error carrying the operator and both operands' type
names; in particular `none == none` and `none != none` are errors, not
booleans. -/
theorem binary_none_invalid (op : BinaryOpType) (v : Value) (sp : Span) :
    evalBinary .none op v sp =
      .error (.InvalidBinary op "none" v.type_name sp) ∧
    evalBinary v op .none sp =
      .error (.InvalidBinary op v.type_name "none" sp) := by
  cases v <;> cases op <;> exact ⟨rfl, rfl⟩

end EvalBinaryClaims

section TernaryClaim

/-- C5 (evaluation of the code at the failing input): the parser builds
`Ternary(condition, true-clause, false-clause)` with the condition in the
first field, but the engine's `Ternary` arm destructures
`Ternary(lhs, cond, rhs)` and evaluates the SECOND field as the condition,
returning the first field on `true`.  So parsing `true ? 1 : nope` yields
the tree `Ternary(true, 1, nope)`, and evaluating that tree fails with
`TypeMismatch` (expected `'bool'`, found `'int'`, pinned to the
true-clause's span) because the true-clause `1` is evaluated as the
condition — it does not return `Int(1)` as the claim states.  Conversely,
on the tree `Ternary(42, true, nope)` the engine evaluates the middle
`true` as the condition and returns the first field, `Int(42)`. -/
theorem ternary_engine_misreads_condition_field :
    parse 30 [(Token.bool true, ⟨0, 4⟩), (Token.question, ⟨5, 6⟩),
        (Token.int 1, ⟨7, 8⟩), (Token.colon, ⟨9, 10⟩),
        (Token.ident "nope", ⟨11, 15⟩)] =
      .ok ⟨⟨0, 15⟩, .ternary ⟨⟨0, 4⟩, .bool true⟩ ⟨⟨7, 8⟩, .int 1⟩
        ⟨⟨11, 15⟩, .var "nope"⟩⟩ [] ∧
    (∀ st : Eng,
      evalExpr 3 st ⟨⟨0, 15⟩, .ternary ⟨⟨0, 4⟩, .bool true⟩
          ⟨⟨7, 8⟩, .int 1⟩ ⟨⟨11, 15⟩, .var "nope"⟩⟩ =
        (.err (.TypeMismatch "'bool'" "'int'" ⟨7, 8⟩), st)) ∧
    (∀ st : Eng,
      evalExpr 3 st ⟨⟨0, 15⟩, .ternary ⟨⟨0, 4⟩, .int 42⟩
          ⟨⟨7, 8⟩, .bool true⟩ ⟨⟨11, 15⟩, .var "nope"⟩⟩ =
        (.ok (.int 42), st)) :=
  ⟨rfl, fun _ => rfl, fun _ => rfl⟩

end TernaryClaim

section ParserClaims

/-- C6: comparisons chain left-associatively by re-entering the comparison
tier with the built node as the new left operand: `a < b < c` parses as
`(a < b) < c` for all integer atoms and spans, and evaluating the tree of
`1 < 2 < 0` applies `Lt` to a `Bool` left operand and an `Int` right
operand, failing with `InvalidBinary` instead of range chaining. -/
theorem comparison_chain_left_assoc :
    (∀ (a b c : ℤ) (s1 s2 s3 s4 s5 : Span),
      parse 30 [(Token.int a, s1), (Token.lt, s2), (Token.int b, s3),
          (Token.lt, s4), (Token.int c, s5)] =
        .ok ⟨⟨s1.lo, s5.hi⟩, .lt ⟨⟨s1.lo, s3.hi⟩,
          .lt ⟨s1, .int a⟩ ⟨s3, .int b⟩⟩ ⟨s5, .int c⟩⟩ []) ∧
    (∀ st : Eng,
      evalExpr 9 st ⟨⟨0, 9⟩, .lt ⟨⟨0, 5⟩, .lt ⟨⟨0, 1⟩, .int 1⟩
          ⟨⟨4, 5⟩, .int 2⟩⟩ ⟨⟨8, 9⟩, .int 0⟩⟩ =
        (.err (.InvalidBinary .Lt "bool" "int" ⟨0, 9⟩), st)) :=
  ⟨fun _ _ _ _ _ _ _ _ => rfl, fun _ => rfl⟩

/-- C7 (evaluation of the code at the failing input): on the token sequence
`true or false`, the or tier leaves the `or` token unconsumed and the whole
climb returns only the left operand, because `parse_ors` peeks for
`Token::And`; on an `and` token the or tier fires and builds an `Expr::And`
node.  No parser path constructs `Expr::Or`. -/
theorem parse_ors_tests_and_token :
    parse 30 [(Token.bool true, ⟨0, 4⟩), (Token.or, ⟨5, 7⟩),
        (Token.bool false, ⟨8, 13⟩)] =
      .ok ⟨⟨0, 4⟩, .bool true⟩
        [(Token.or, ⟨5, 7⟩), (Token.bool false, ⟨8, 13⟩)] ∧
    parse_ors 30 ⟨⟨0, 4⟩, .bool true⟩
        [(Token.or, ⟨5, 7⟩), (Token.bool false, ⟨8, 13⟩)] =
      .ok ⟨⟨0, 4⟩, .bool true⟩
        [(Token.or, ⟨5, 7⟩), (Token.bool false, ⟨8, 13⟩)] ∧
    parse_ors 30 ⟨⟨0, 4⟩, .bool true⟩
        [(Token.and, ⟨5, 8⟩), (Token.bool false, ⟨9, 14⟩)] =
      .ok ⟨⟨0, 14⟩, .and ⟨⟨0, 4⟩, .bool true⟩ ⟨⟨9, 14⟩, .bool false⟩⟩ [] :=
  ⟨rfl, rfl, rfl⟩

/-- C8 counterexample: on the token sequence `- 2 ** 3` the parser produces
a `Neg` root (negation of the whole power), not the `Pow` root the claim
states — prefix `-` does not bind tighter than `**`. -/
theorem neg_pow_parse_counterexample :
    parse 30 [(Token.sub, ⟨0, 1⟩), (Token.int 2, ⟨1, 2⟩),
        (Token.pow, ⟨2, 4⟩), (Token.int 3, ⟨4, 5⟩)] =
      .ok ⟨⟨0, 5⟩, .neg ⟨⟨1, 5⟩, .pow ⟨⟨1, 2⟩, .int 2⟩ ⟨⟨4, 5⟩, .int 3⟩⟩⟩
        [] ∧
    (match parse 30 [(Token.sub, ⟨0, 1⟩), (Token.int 2, ⟨1, 2⟩),
        (Token.pow, ⟨2, 4⟩), (Token.int 3, ⟨4, 5⟩)] with
      | .ok nd _ => isPowRoot nd.item
      | _ => true) = false :=
  ⟨rfl, rfl⟩

/-- C8 (amended): prefix unary `-` binds tighter than every binary operator
except `**`: `- a ** b` parses as `Neg(Pow(a, b))` (the prefix operand
re-enters the power tier), while `- a * b` parses as `Mul(Neg(a), b)`. -/
theorem neg_pow_parses_as_neg_of_pow (a b : ℤ) (s0 s1 s2 s3 : Span) :
    parse 30 [(Token.sub, s0), (Token.int a, s1), (Token.pow, s2),
        (Token.int b, s3)] =
      .ok ⟨⟨s0.lo, s3.hi⟩, .neg ⟨⟨s1.lo, s3.hi⟩,
        .pow ⟨s1, .int a⟩ ⟨s3, .int b⟩⟩⟩ [] ∧
    parse 30 [(Token.sub, s0), (Token.int a, s1), (Token.mul, s2),
        (Token.int b, s3)] =
      .ok ⟨⟨s0.lo, s3.hi⟩, .mul ⟨⟨s0.lo, s1.hi⟩, .neg ⟨s1, .int a⟩⟩
        ⟨s3, .int b⟩⟩ [] :=
  ⟨rfl, rfl⟩

end ParserClaims

section ScopeLemmas

theorem Scope.get_var_init_of_ne (s : Scope) (p x : String) (v : Value)
    (h : x ≠ p) : (s.init_var p v).get_var x = s.get_var x := by
  have hb : (x == p) = false := beq_eq_false_iff_ne.mpr h
  simp [Scope.init_var, Scope.get_var, List.lookup, hb]

theorem bindParams_cons (g sc : Scope) (rest : List Scope)
    (l : List (Node String × Value)) :
    bindParams ⟨g, sc :: rest⟩ l =
      ⟨g, (l.foldl (fun s pv => s.init_var pv.1.item pv.2) sc) :: rest⟩ := by
  induction l generalizing sc with
  | nil => rfl
  | cons pv l ih =>
    simp only [bindParams, List.foldl_cons] at *
    exact ih _

theorem scope_fold_get_var (sc : Scope) (l : List (Node String × Value))
    (x : String) (hx : x ∉ l.map (fun pv => pv.1.item)) :
    (l.foldl (fun s pv => s.init_var pv.1.item pv.2) sc).get_var x =
      sc.get_var x := by
  induction l generalizing sc with
  | nil => rfl
  | cons pv l ih =>
    simp only [List.map_cons, List.mem_cons] at hx
    push_neg at hx
    rw [List.foldl_cons, ih _ hx.2, Scope.get_var_init_of_ne _ _ _ _ hx.1]

theorem get_var_bindParams_push (st : Eng) (l : List (Node String × Value))
    (x : String) (hx : x ∉ l.map (fun pv => pv.1.item)) :
    (bindParams st.push_scope l).get_var x = st.get_var x := by
  rw [show st.push_scope = ⟨st.global, Scope.new :: st.nested⟩ from rfl,
    bindParams_cons]
  simp only [Eng.get_var, List.findSome?_cons, scope_fold_get_var _ _ _ hx]
  rfl

theorem zip_fst_names (ps : List (Node String)) (vs : List Value) :
    (ps.zip vs).map (fun pv => pv.1.item) =
      (ps.take vs.length).map Node.item := by
  induction ps generalizing vs with
  | nil => simp
  | cons p ps ih =>
    cases vs with
    | nil => simp
    | cons v vs => simp [ih]

end ScopeLemmas

section ParamCountClaim

/-- C2: a call through `Engine::eval_func` with more argument values than
the resolved callee's declared parameter count fails with `ParameterCount`
before any frame is pushed or any body code runs (the state is returned
untouched); with fewer arguments the call proceeds, `params.zip(values)`
binds only the first `k` parameters (`k` = number of arguments), and a body
reference to an unbound trailing parameter fails with `UnknownVariable`. -/
theorem eval_func_param_count_check :
    (∀ (fuel : Nat) (st : Eng) (ident : Node String) (vs : List Value)
        (f : FuncType),
      st.find_func ident.item = some f →
      f.param_count < vs.length →
      evalFunc (fuel + 1) st ident vs =
        (.err (.ParameterCount f.param_count vs.length ident.data), st)) ∧
    (∀ (fuel : Nat) (st : Eng) (ident : Node String) (vs : List Value)
        (nm x : String) (ps : List (Node String)) (s1 s2 : Span),
      st.find_func ident.item =
        some (.custom (.mk nm ps [⟨s1, .expr ⟨s2, .var x⟩⟩])) →
      vs.length ≤ ps.length →
      x ∈ (ps.drop vs.length).map Node.item →
      x ∉ (ps.take vs.length).map Node.item →
      st.get_var x = Option.none →
      evalFunc (fuel + 4) st ident vs =
        (.err (.UnknownVariable x s2), st)) := by
  constructor
  · intro fuel st ident vs f hf hcount
    have hg : st.get_func ident = .ok f := by
      simp [Eng.get_func, hf]
    simp only [evalFunc, hg]
    rw [if_pos hcount]
  · intro fuel st ident vs nm x ps s1 s2 hf hlen hdrop htake hvar
    have hg : st.get_func ident =
        .ok (.custom (.mk nm ps [⟨s1, .expr ⟨s2, .var x⟩⟩])) := by
      simp [Eng.get_func, hf]
    have hnames : x ∉ (ps.zip vs).map (fun pv => pv.1.item) := by
      rw [zip_fst_names]; exact htake
    have hlook : (bindParams st.push_scope (ps.zip vs)).get_var x =
        Option.none := by
      rw [get_var_bindParams_push st _ x hnames, hvar]
    have hpop : (bindParams st.push_scope (ps.zip vs)).pop_scope = st := by
      rw [show st.push_scope = ⟨st.global, Scope.new :: st.nested⟩ from rfl,
        bindParams_cons]
      rfl
    rw [show fuel + 4 = fuel + 3 + 1 from rfl]
    simp only [evalFunc, hg]
    rw [if_neg (by simp only [FuncType.param_count, CustomFunc.params]; omega)]
    simp only [CustomFunc.params, CustomFunc.body]
    rw [show fuel + 3 = fuel + 2 + 1 from rfl]
    simp only [evalBody]
    rw [show fuel + 2 = fuel + 1 + 1 from rfl]
    simp only [evalStatement, evalExpr, hlook, hpop]

end ParamCountClaim

/-- A concrete engine for the C2 witness: one global custom function
`g(a, b)` whose body is the single statement `b`. -/
def engC2 : Eng :=
  ⟨⟨[], [("g", .custom (.mk "g" [⟨⟨0, 0⟩, "a"⟩, ⟨⟨0, 0⟩, "b"⟩]
    [⟨⟨0, 0⟩, .expr ⟨⟨0, 0⟩, .var "b"⟩⟩]))]⟩, []⟩

/-- Witness for C2: calling `g(a, b)` with three arguments fails with
`ParameterCount 2 3` and an unchanged state; calling it with one argument
binds only `a`, and the body reference to `b` fails with
`UnknownVariable`. -/
theorem eval_func_param_count_check_witness :
    ((FuncType.custom (.mk "g" [⟨⟨0, 0⟩, "a"⟩, ⟨⟨0, 0⟩, "b"⟩]
        [⟨⟨0, 0⟩, .expr ⟨⟨0, 0⟩, .var "b"⟩⟩])).param_count < 3 ∧
      evalFunc 1 engC2 ⟨⟨0, 0⟩, "g"⟩ [.int 1, .int 2, .int 3] =
        (.err (.ParameterCount 2 3 ⟨0, 0⟩), engC2)) ∧
    ((1 : Nat) ≤ 2 ∧
      evalFunc 5 engC2 ⟨⟨0, 0⟩, "g"⟩ [.int 1] =
        (.err (.UnknownVariable "b" ⟨0, 0⟩), engC2)) := by
  constructor
  · refine ⟨by decide, ?_⟩
    exact eval_func_param_count_check.1 0 engC2 ⟨⟨0, 0⟩, "g"⟩
      [.int 1, .int 2, .int 3] _ rfl (by decide)
  · refine ⟨by decide, ?_⟩
    exact eval_func_param_count_check.2 1 engC2 ⟨⟨0, 0⟩, "g"⟩ [.int 1]
      "g" "b" [⟨⟨0, 0⟩, "a"⟩, ⟨⟨0, 0⟩, "b"⟩] ⟨0, 0⟩ ⟨0, 0⟩ rfl
      (by decide) (by decide) (by decide) rfl

section DepthLemmas

theorem set_var_nested_length (st : Eng) (i : String) (v : Value) :
    (st.set_var i v).nested.length = st.nested.length := by
  cases h : st.nested <;> simp [Eng.set_var, h]

theorem set_func_nested_length (st : Eng) (f : FuncType) :
    (st.set_func f).nested.length = st.nested.length := by
  cases h : st.nested <;> simp [Eng.set_func, h]

theorem bindParams_nested_length (l : List (Node String × Value)) (st : Eng) :
    (bindParams st l).nested.length = st.nested.length := by
  induction l generalizing st with
  | nil => rfl
  | cons pv l ih =>
    exact (ih (st.set_var pv.1.item pv.2)).trans
      (set_var_nested_length st pv.1.item pv.2)

/-- The frame-depth invariant of the whole evaluator: whenever a fueled
evaluation returns (is not a `timeout`), the call-frame stack is exactly as
deep as before the call — in particular `evalFunc` pairs its frame push
with a pop on every exit path, success or error. -/
theorem depth_invariant : ∀ fuel : Nat,
    (∀ st e, (evalExpr fuel st e).1 ≠ .timeout →
      (evalExpr fuel st e).2.nested.length = st.nested.length) ∧
    (∀ st l op r sp, (evalBinop fuel st l op r sp).1 ≠ .timeout →
      (evalBinop fuel st l op r sp).2.nested.length = st.nested.length) ∧
    (∀ st es, (evalArgs fuel st es).1 ≠ .timeout →
      (evalArgs fuel st es).2.nested.length = st.nested.length) ∧
    (∀ st s, (evalStatement fuel st s).1 ≠ .timeout →
      (evalStatement fuel st s).2.nested.length = st.nested.length) ∧
    (∀ st cond body, (evalWhile fuel st cond body).1 ≠ .timeout →
      (evalWhile fuel st cond body).2.nested.length = st.nested.length) ∧
    (∀ st ss out, (evalBody fuel st ss out).1 ≠ .timeout →
      (evalBody fuel st ss out).2.nested.length = st.nested.length) ∧
    (∀ st i vs, (evalFunc fuel st i vs).1 ≠ .timeout →
      (evalFunc fuel st i vs).2.nested.length = st.nested.length) := by
  intro fuel
  induction fuel with
  | zero =>
    exact ⟨fun _ _ h => absurd rfl h, fun _ _ _ _ _ h => absurd rfl h,
      fun _ _ h => absurd rfl h, fun _ _ h => absurd rfl h,
      fun _ _ _ h => absurd rfl h, fun _ _ _ h => absurd rfl h,
      fun _ _ _ h => absurd rfl h⟩
  | succ n ih =>
    obtain ⟨ihE, ihB, ihA, ihS, ihW, ihBo, ihF⟩ := ih
    have dE : ∀ st0 e0 r0 st0', evalExpr n st0 e0 = (r0, st0') →
        r0 ≠ Res.timeout → st0'.nested.length = st0.nested.length := by
      intro st0 e0 r0 st0' hh hr
      have hx := ihE st0 e0
      rw [hh] at hx
      exact hx hr
    have dA : ∀ st0 es0 r0 st0', evalArgs n st0 es0 = (r0, st0') →
        r0 ≠ Res.timeout → st0'.nested.length = st0.nested.length := by
      intro st0 es0 r0 st0' hh hr
      have hx := ihA st0 es0
      rw [hh] at hx
      exact hx hr
    have dS : ∀ st0 s0 r0 st0', evalStatement n st0 s0 = (r0, st0') →
        r0 ≠ Res.timeout → st0'.nested.length = st0.nested.length := by
      intro st0 s0 r0 st0' hh hr
      have hx := ihS st0 s0
      rw [hh] at hx
      exact hx hr
    have dBo : ∀ st0 ss0 out0 r0 st0', evalBody n st0 ss0 out0 = (r0, st0') →
        r0 ≠ Res.timeout → st0'.nested.length = st0.nested.length := by
      intro st0 ss0 out0 r0 st0' hh hr
      have hx := ihBo st0 ss0 out0
      rw [hh] at hx
      exact hx hr
    refine ⟨?_, ?_, ?_, ?_, ?_, ?_, ?_⟩
    · -- evalExpr
      intro st e h
      obtain ⟨sp, item⟩ := e
      cases item
      all_goals simp only [evalExpr] at h ⊢
      all_goals try exact ihB _ _ _ _ _ h
      case var ident =>
        cases hv : st.get_var ident <;> simp [hv]
      case call ident args =>
        rcases h1 : evalArgs n st args with ⟨vals | e1 | _, st1⟩ <;>
          simp only [h1] at h ⊢

        · have hf := ihF st1 ident vals h
          rw [hf]
          exact dA _ _ _ _ h1 (by simp)
        · exact dA _ _ _ _ h1 (by simp)
        · exact absurd rfl h
      case neg inner =>
        rcases h1 : evalExpr n st inner with ⟨v | e1 | _, st1⟩ <;>
          simp only [h1] at h ⊢
        · rcases h2 : evalUnary .Neg v sp with v2 | e2 <;> simp only [h2]
          all_goals exact dE _ _ _ _ h1 (by simp)
        · exact dE _ _ _ _ h1 (by simp)
        · exact absurd rfl h
      case not inner =>
        rcases h1 : evalExpr n st inner with ⟨v | e1 | _, st1⟩ <;>
          simp only [h1] at h ⊢
        · rcases h2 : evalUnary .Not v sp with v2 | e2 <;> simp only [h2]
          all_goals exact dE _ _ _ _ h1 (by simp)
        · exact dE _ _ _ _ h1 (by simp)
        · exact absurd rfl h
      case assign ident e0 =>
        rcases h1 : evalExpr n st e0 with ⟨v | e1 | _, st1⟩ <;>
          simp only [h1] at h ⊢
        · rw [set_var_nested_length]
          exact dE _ _ _ _ h1 (by simp)
        · exact dE _ _ _ _ h1 (by simp)
        · exact absurd rfl h
      case walrus ident e0 =>
        rcases h1 : evalExpr n st e0 with ⟨v | e1 | _, st1⟩ <;>
          simp only [h1] at h ⊢
        · rw [set_var_nested_length]
          exact dE _ _ _ _ h1 (by simp)
        · exact dE _ _ _ _ h1 (by simp)
        · exact absurd rfl h
      case ternary cond t f =>
        rcases h1 : evalExpr n st t with ⟨v | e1 | _, st1⟩ <;>
          simp only [h1] at h ⊢
        · cases v with
          | bool b =>
            cases b with
            | true =>
              have hf := ihE st1 cond h
              rw [hf]
              exact dE _ _ _ _ h1 (by simp)
            | false =>
              have hf := ihE st1 f h
              rw [hf]
              exact dE _ _ _ _ h1 (by simp)
          | none => exact dE _ _ _ _ h1 (by simp)
          | int m => exact dE _ _ _ _ h1 (by simp)
          | float q => exact dE _ _ _ _ h1 (by simp)
          | string s => exact dE _ _ _ _ h1 (by simp)
        · exact dE _ _ _ _ h1 (by simp)
        · exact absurd rfl h
    · -- evalBinop
      intro st l op r sp h
      simp only [evalBinop] at h ⊢
      rcases h1 : evalExpr n st l with ⟨v1 | e1 | _, st1⟩ <;>
        simp only [h1] at h ⊢
      · rcases h2 : evalExpr n st1 r with ⟨v2 | e2 | _, st2⟩ <;>
          simp only [h2] at h ⊢
        · rcases h3 : evalBinary v1 op v2 sp with v3 | e3 <;> simp only [h3]
          all_goals
            exact (dE _ _ _ _ h2 (by simp)).trans (dE _ _ _ _ h1 (by simp))
        · exact (dE _ _ _ _ h2 (by simp)).trans (dE _ _ _ _ h1 (by simp))
        · exact absurd rfl h
      · exact dE _ _ _ _ h1 (by simp)
      · exact absurd rfl h
    · -- evalArgs
      intro st es h
      cases es with
      | nil => rfl
      | cons e rest =>
        simp only [evalArgs] at h ⊢
        rcases h1 : evalExpr n st e with ⟨v | e1 | _, st1⟩ <;>
          simp only [h1] at h ⊢
        · rcases h2 : evalArgs n st1 rest with ⟨vs | e2 | _, st2⟩ <;>
            simp only [h2] at h ⊢
          · exact (dA _ _ _ _ h2 (by simp)).trans (dE _ _ _ _ h1 (by simp))
          · exact (dA _ _ _ _ h2 (by simp)).trans (dE _ _ _ _ h1 (by simp))
          · exact absurd rfl h
        · exact dE _ _ _ _ h1 (by simp)
        · exact absurd rfl h
    · -- evalStatement
      intro st s h
      obtain ⟨sp, item⟩ := s
      cases item
      case expr e =>
        simp only [evalStatement] at h ⊢
        exact ihE st e h
      case func f =>
        simp only [evalStatement]
        rw [set_func_nested_length]
      case letAssign ident e0 =>
        simp only [evalStatement] at h ⊢
        rcases h1 : evalExpr n st e0 with ⟨v | e1 | _, st1⟩ <;>
          simp only [h1] at h ⊢
        · rw [set_var_nested_length]
          exact dE _ _ _ _ h1 (by simp)
        · exact dE _ _ _ _ h1 (by simp)
        · exact absurd rfl h
      case assign ident e0 =>
        simp only [evalStatement] at h ⊢
        rcases h1 : evalExpr n st e0 with ⟨v | e1 | _, st1⟩ <;>
          simp only [h1] at h ⊢
        · rw [set_var_nested_length]
          exact dE _ _ _ _ h1 (by simp)
        · exact dE _ _ _ _ h1 (by simp)
        · exact absurd rfl h
      case whileLoop cond body =>
        simp only [evalStatement] at h ⊢
        exact ihW st cond body h
    · -- evalWhile
      intro st cond body h
      simp only [evalWhile] at h ⊢
      rcases h1 : evalExpr n st cond with ⟨v | e1 | _, st1⟩ <;>
        simp only [h1] at h ⊢
      · cases v with
        | bool b =>
          cases b with
          | true =>
            rcases h2 : evalBody n st1 body .none with ⟨w | e2 | _, st2⟩ <;>
              simp only [h2] at h ⊢
            · have hw := ihW st2 cond body h
              rw [hw]
              exact (dBo _ _ _ _ _ h2 (by simp)).trans
                (dE _ _ _ _ h1 (by simp))
            · exact (dBo _ _ _ _ _ h2 (by simp)).trans
                (dE _ _ _ _ h1 (by simp))
            · exact absurd rfl h
          | false => exact dE _ _ _ _ h1 (by simp)
        | none => exact dE _ _ _ _ h1 (by simp)
        | int m => exact dE _ _ _ _ h1 (by simp)
        | float q => exact dE _ _ _ _ h1 (by simp)
        | string s => exact dE _ _ _ _ h1 (by simp)
      · exact dE _ _ _ _ h1 (by simp)
      · exact absurd rfl h
    · -- evalBody
      intro st ss out h
      cases ss with
      | nil => rfl
      | cons s rest =>
        simp only [evalBody] at h ⊢
        rcases h1 : evalStatement n st s with ⟨v | e1 | _, st1⟩ <;>
          simp only [h1] at h ⊢
        · exact (ihBo st1 rest v h).trans (dS _ _ _ _ h1 (by simp))
        · exact dS _ _ _ _ h1 (by simp)
        · exact absurd rfl h
    · -- evalFunc
      intro st i vs h
      simp only [evalFunc] at h ⊢
      rcases hg : st.get_func i with e0 | f <;> simp only [hg] at h ⊢
      · by_cases hc : f.param_count < vs.length
        · simp only [if_pos hc]
        · simp only [if_neg hc] at h ⊢
          cases f with
          | native nf =>
            rcases hn : nf.callback vs with v | msg <;>
              simp only [hn] at h ⊢
            all_goals simp [Eng.pop_scope, Eng.push_scope]
          | custom cf =>
            rcases h2 : evalBody n (bindParams st.push_scope
                (cf.params.zip vs)) cf.body .none with ⟨v | e2 | _, st3⟩ <;>
              simp only [h2] at h ⊢
            · have d3 := dBo _ _ _ _ _ h2 (by simp)
              rw [bindParams_nested_length] at d3
              simp only [Eng.push_scope, List.length_cons] at d3
              simp only [Eng.pop_scope, List.length_tail, d3]
              omega
            · have d3 := dBo _ _ _ _ _ h2 (by simp)
              rw [bindParams_nested_length] at d3
              simp only [Eng.push_scope, List.length_cons] at d3
              simp only [Eng.pop_scope, List.length_tail, d3]
              omega
            · exact absurd rfl h

end DepthLemmas

section FrameClaim

/-- C1: every call through `Engine::eval_func` — native or custom, success
or error — restores the call-frame stack to its pre-call depth by the time
it returns: the frame pushed after the parameter-count check is popped on
every exit path, including the native-callback error path and the
body-statement error path. -/
theorem eval_func_restores_scope_depth (fuel : Nat) (st : Eng)
    (ident : Node String) (vs : List Value)
    (h : (evalFunc fuel st ident vs).1 ≠ .timeout) :
    (evalFunc fuel st ident vs).2.nested.length = st.nested.length :=
  (depth_invariant fuel).2.2.2.2.2.2 st ident vs h

/-- A concrete engine for the C1 witness: one global custom function
`f()` whose body is the single statement `1`. -/
def engC1 : Eng :=
  ⟨⟨[], [("f", .custom (.mk "f" [] [⟨⟨0, 0⟩, .expr ⟨⟨0, 0⟩, .int 1⟩⟩]))]⟩, []⟩

/-- Witness for C1: a concrete returning call, with the frame stack back at
its pre-call depth. -/
theorem eval_func_restores_scope_depth_witness :
    (evalFunc 5 engC1 ⟨⟨0, 0⟩, "f"⟩ []).1 ≠ Res.timeout ∧
    (evalFunc 5 engC1 ⟨⟨0, 0⟩, "f"⟩ []).2.nested.length =
      engC1.nested.length :=
  ⟨by decide, eval_func_restores_scope_depth 5 engC1 ⟨⟨0, 0⟩, "f"⟩ []
    (by decide)⟩

end FrameClaim

end Boba
